import Mathlib

/-!
Verification of the passkey-gated login server (`server.py`): a shallow
embedding of its rate limiter (`RateLimiter.is_allowed`), credential store
(`load_passkeys` / `save_passkeys` and the passkey-management handlers),
and session gate (`verify` / `logout`), with theorems about their behaviour.

Time is modelled as `ℚ` (seconds); the CSV storage file as an optional list
of rows, each row a list of fields; `none` means the file is absent.
-/

/-- Pointwise update of a map from IPs, modelling a Python dict assignment. -/
def updateFn {α : Type} (f : String → α) (a : String) (v : α) : String → α :=
  fun x => if x = a then v else f x

/-- Python's `str.strip()`: drop leading and trailing whitespace. -/
def pyStrip (s : String) : String :=
  ⟨((s.data.dropWhile Char.isWhitespace).reverse.dropWhile Char.isWhitespace).reverse⟩

/-- State of `RateLimiter`: configuration plus the two per-IP tables
`request_counts` (IP → list of timestamps) and `timeouts` (IP → timeout end). -/
structure RateLimiter where
  requests_per_minute : ℕ
  timeout_seconds : ℚ
  request_counts : String → List ℚ
  timeouts : String → Option ℚ

/-- Constructor `RateLimiter.__init__`: empty tables (a `defaultdict(list)` and `{}`). -/
def RateLimiter.init (rpm : ℕ) (ts : ℚ) : RateLimiter :=
  ⟨rpm, ts, fun _ => [], fun _ => none⟩

/-- Lines 47–59 of `is_allowed`: prune entries older than one minute, reject
and start a timeout when the pruned log has reached the limit, else record
`now` and admit. The pruned log is stored back even on the reject path. -/
def rateCheck (rl : RateLimiter) (ip : String) (now : ℚ) : Bool × RateLimiter :=
  let minute_ago := now - 60
  let pruned := (rl.request_counts ip).filter (fun t => decide (minute_ago < t))
  let rl1 : RateLimiter := { rl with request_counts := updateFn rl.request_counts ip pruned }
  if rl.requests_per_minute ≤ pruned.length then
    (false, { rl1 with timeouts := updateFn rl1.timeouts ip (some (now + rl.timeout_seconds)) })
  else
    (true, { rl1 with request_counts := updateFn rl1.request_counts ip (pruned ++ [now]) })

/-- Model of `RateLimiter.is_allowed`: an unexpired timeout rejects immediately with no
state change; an expired one is deleted first; then the window check runs. -/
def is_allowed (rl : RateLimiter) (ip : String) (now : ℚ) : Bool × RateLimiter :=
  match rl.timeouts ip with
  | some exp =>
      if now < exp then (false, rl)
      else rateCheck { rl with timeouts := updateFn rl.timeouts ip none } ip now
  | none => rateCheck rl ip now

/-- Run a sequence of `is_allowed` calls, collecting the results. -/
def run_calls (rl : RateLimiter) (calls : List (String × ℚ)) : List Bool × RateLimiter :=
  match calls with
  | [] => ([], rl)
  | c :: rest =>
      let r := is_allowed rl c.1 c.2
      let rest' := run_calls r.2 rest
      (r.1 :: rest'.1, rest'.2)

/-- The constant `ADMIN_PASSKEY`. -/
def ADMIN_PASSKEY : String := "admin123"

/-- The default seed set written when the storage file is absent. -/
def default_passkeys : Finset String := {"secret123", "user456", "guest789"}

/-- A parsed CSV file: a list of rows, each a list of fields. -/
abbrev CsvFile := List (List String)

/-- Model of `save_passkeys`: one row per passkey (set iteration order is modelled as
the sorted order; only the set of rows matters to the loader). -/
def save_passkeys (s : Finset String) : CsvFile :=
  (s.sort (· ≤ ·)).map (fun p => [p])

/-- The set `set(row[0] for row in reader if row)` read from a CSV file. -/
def parse_rows (rows : CsvFile) : Finset String :=
  ((rows.filter (fun r => !r.isEmpty)).filterMap List.head?).toFinset

/-- Model of `load_passkeys`: if the file exists, parse it and leave it unchanged;
otherwise seed the default set and persist it. Returns the loaded set
together with the resulting file state. -/
def load_passkeys (file : Option CsvFile) : Finset String × Option CsvFile :=
  match file with
  | some rows => (parse_rows rows, some rows)
  | none => (default_passkeys, some (save_passkeys default_passkeys))

/-- Flask session: `session.get('authenticated')` / `session.get('is_admin')`,
with absent keys read as `false`. -/
structure Session where
  authenticated : Bool
  is_admin : Bool
deriving DecidableEq, Repr

/-- A fresh session: both keys absent. -/
def Session.start : Session := ⟨false, false⟩

/-- Outcome of `POST /api/verify`. -/
inductive VerifyResult
  | admin
  | user
  | invalid
deriving DecidableEq, Repr

/-- HTTP status attached to each `/api/verify` outcome. -/
def verify_status : VerifyResult → ℕ
  | .invalid => 401
  | _ => 200

/-- The `verify` handler: admin passkey first, then membership in the user
set; otherwise a 401 with the session untouched. -/
def verify (passkeys : Finset String) (sess : Session) (passkey : String) :
    VerifyResult × Session :=
  if passkey = ADMIN_PASSKEY then (.admin, ⟨true, true⟩)
  else if passkey ∈ passkeys then (.user, ⟨true, false⟩)
  else (.invalid, sess)

/-- Model of `logout`: `session.clear()`. -/
def logout (_ : Session) : Session := ⟨false, false⟩

/-- The `/dashboard` guard: requires `authenticated`. -/
def dashboard_allows (s : Session) : Bool := s.authenticated

/-- The `/admin` guard: requires `is_admin`. -/
def admin_allows (s : Session) : Bool := s.is_admin

/-- Credential-store state: the in-memory set plus the storage file. -/
structure Store where
  passkeys : Finset String
  file : Option CsvFile
deriving DecidableEq

/-- Outcome of `POST /api/passkeys`. -/
inductive AddResult
  | unauthorized
  | empty
  | reservedAdmin
  | alreadyExists
  | ok
deriving DecidableEq, Repr

/-- The `add_passkey` handler: admin-only; trims the input; rejects blank,
the admin passkey, and duplicates; otherwise inserts and persists. -/
def add_passkey (sess : Session) (st : Store) (input : String) : AddResult × Store :=
  if !sess.is_admin then (.unauthorized, st)
  else
    let new_passkey := pyStrip input
    if new_passkey = "" then (.empty, st)
    else if new_passkey = ADMIN_PASSKEY then (.reservedAdmin, st)
    else if new_passkey ∈ st.passkeys then (.alreadyExists, st)
    else
      let pk := insert new_passkey st.passkeys
      (.ok, ⟨pk, some (save_passkeys pk)⟩)

/-- Outcome of `DELETE /api/passkeys/<passkey>`. -/
inductive DeleteResult
  | unauthorized
  | notFound
  | ok
deriving DecidableEq, Repr

/-- The `delete_passkey` handler: admin-only; 404 when absent; otherwise
removes and persists. The URL segment is not trimmed. -/
def delete_passkey (sess : Session) (st : Store) (passkey : String) :
    DeleteResult × Store :=
  if !sess.is_admin then (.unauthorized, st)
  else if passkey ∉ st.passkeys then (.notFound, st)
  else
    let pk := st.passkeys.erase passkey
    (.ok, ⟨pk, some (save_passkeys pk)⟩)

/-- The `GET /api/passkeys` handler: the listing, admin-only. -/
def get_passkeys (sess : Session) (st : Store) : Option (List String) :=
  if sess.is_admin then some (st.passkeys.sort (· ≤ ·)) else none

/-- Session states reachable from a fresh session via `verify` (with any
credential set and any input) and `logout`. -/
inductive SessionReachable : Session → Prop
  | start : SessionReachable Session.start
  | verify_step (pk : Finset String) (s : Session) (input : String) :
      SessionReachable s → SessionReachable (verify pk s input).2
  | logout_step (s : Session) : SessionReachable s → SessionReachable (logout s)

/-- Store states reachable from the freshly seeded store via the add and
delete handlers (any session, any input). -/
inductive StoreReachable : Store → Prop
  | seeded : StoreReachable ⟨default_passkeys, some (save_passkeys default_passkeys)⟩
  | add_step (sess : Session) (st : Store) (input : String) :
      StoreReachable st → StoreReachable (add_passkey sess st input).2
  | del_step (sess : Session) (st : Store) (input : String) :
      StoreReachable st → StoreReachable (delete_passkey sess st input).2

/-! ## Helper lemmas -/

theorem updateFn_same {α : Type} (f : String → α) (a : String) (v : α) :
    updateFn f a v a = v := by
  simp [updateFn]

theorem updateFn_other {α : Type} (f : String → α) (a : String) (v : α) (x : String)
    (h : x ≠ a) : updateFn f a v x = f x := by
  simp [updateFn, h]

theorem updateFn_updateFn {α : Type} (f : String → α) (a : String) (v w : α) :
    updateFn (updateFn f a v) a w = updateFn f a w := by
  funext x
  by_cases hx : x = a <;> simp [updateFn, hx]

/-- Saving and re-parsing a passkey set is the identity. -/
theorem parse_rows_save (s : Finset String) : parse_rows (save_passkeys s) = s := by
  unfold parse_rows save_passkeys
  rw [List.filter_eq_self.mpr ?_]
  · rw [List.filterMap_map]
    have h : (List.head? ∘ fun p : String => [p]) = some := rfl
    rw [h, List.filterMap_some, Finset.sort_toFinset]
  · intro a ha
    obtain ⟨p, _, rfl⟩ := List.mem_map.mp ha
    rfl

/-- An unexpired timeout: `is_allowed` rejects and returns the state untouched. -/
theorem is_allowed_blocked {rl : RateLimiter} {ip : String} {now e : ℚ}
    (h : rl.timeouts ip = some e) (hlt : now < e) :
    is_allowed rl ip now = (false, rl) := by
  simp [is_allowed, h, hlt]

/-- A whole burst of calls during an unexpired timeout: all rejected, state
untouched. -/
theorem run_calls_blocked {rl : RateLimiter} {ip : String} {e : ℚ}
    (h : rl.timeouts ip = some e) :
    ∀ times : List ℚ, (∀ u ∈ times, u < e) →
      run_calls rl (times.map (fun u => (ip, u))) = (times.map (fun _ => false), rl) := by
  intro times
  induction times with
  | nil => intro _; simp [run_calls]
  | cons u rest ih =>
      intro hu
      have h1 : is_allowed rl ip u = (false, rl) :=
        is_allowed_blocked h (hu u (by simp))
      have h2 := ih (fun v hv => hu v (by simp [hv]))
      simp [run_calls, h1, h2]

/-- With no blocking timeout, `is_allowed` is `rateCheck` on a state with the
same log and configuration. -/
theorem is_allowed_free {rl : RateLimiter} {ip : String} {now : ℚ}
    (h : ∀ e, rl.timeouts ip = some e → e ≤ now) :
    ∃ rl' : RateLimiter, is_allowed rl ip now = rateCheck rl' ip now ∧
      rl'.request_counts = rl.request_counts ∧
      rl'.requests_per_minute = rl.requests_per_minute ∧
      rl'.timeout_seconds = rl.timeout_seconds := by
  cases hto : rl.timeouts ip with
  | none => exact ⟨rl, by simp [is_allowed, hto], rfl, rfl, rfl⟩
  | some e =>
      refine ⟨{ rl with timeouts := updateFn rl.timeouts ip none }, ?_, rfl, rfl, rfl⟩
      simp [is_allowed, hto, not_lt.mpr (h e hto)]

/-- The `rateCheck` reject case: the window is full. -/
theorem rateCheck_reject {rl : RateLimiter} {ip : String} {now : ℚ}
    (h : rl.requests_per_minute ≤
      ((rl.request_counts ip).filter (fun t => decide (now - 60 < t))).length) :
    rateCheck rl ip now =
      (false,
        { requests_per_minute := rl.requests_per_minute
          timeout_seconds := rl.timeout_seconds
          request_counts := updateFn rl.request_counts ip
            ((rl.request_counts ip).filter (fun t => decide (now - 60 < t)))
          timeouts := updateFn rl.timeouts ip (some (now + rl.timeout_seconds)) }) := by
  simp [rateCheck, h]

/-- The `rateCheck` admit case: the window is below the limit. -/
theorem rateCheck_pass {rl : RateLimiter} {ip : String} {now : ℚ}
    (h : ¬ rl.requests_per_minute ≤
      ((rl.request_counts ip).filter (fun t => decide (now - 60 < t))).length) :
    rateCheck rl ip now =
      (true,
        { requests_per_minute := rl.requests_per_minute
          timeout_seconds := rl.timeout_seconds
          request_counts := updateFn rl.request_counts ip
            (((rl.request_counts ip).filter (fun t => decide (now - 60 < t))) ++ [now])
          timeouts := rl.timeouts }) := by
  simp only [rateCheck, updateFn_same, updateFn_updateFn, if_neg h]

/-- The `add_passkey` handler either leaves the set unchanged or inserts the stripped
input, which is then not the admin passkey. -/
theorem add_passkey_passkeys (sess : Session) (st : Store) (input : String) :
    (add_passkey sess st input).2.passkeys = st.passkeys ∨
    ((add_passkey sess st input).2.passkeys = insert (pyStrip input) st.passkeys ∧
     pyStrip input ≠ ADMIN_PASSKEY) := by
  simp only [add_passkey]
  split_ifs with h1 h2 h3 h4 <;> simp_all

/-- The `delete_passkey` handler either leaves the set unchanged or erases the given key. -/
theorem delete_passkey_passkeys (sess : Session) (st : Store) (input : String) :
    (delete_passkey sess st input).2.passkeys = st.passkeys ∨
    (delete_passkey sess st input).2.passkeys = st.passkeys.erase input := by
  simp only [delete_passkey]
  split_ifs <;> simp

/-- Membership in the result log of `rateCheck` implies recency. -/
theorem rateCheck_recent (rl : RateLimiter) (ip : String) (now : ℚ) :
    ∀ t ∈ (rateCheck rl ip now).2.request_counts ip, now - 60 < t := by
  intro t ht
  by_cases hc : rl.requests_per_minute ≤
      ((rl.request_counts ip).filter (fun t => decide (now - 60 < t))).length
  · rw [rateCheck_reject hc] at ht
    simp only [updateFn_same] at ht
    exact of_decide_eq_true (List.mem_filter.mp ht).2
  · rw [rateCheck_pass hc] at ht
    simp only [updateFn_same] at ht
    rcases List.mem_append.mp ht with h | h
    · exact of_decide_eq_true (List.mem_filter.mp h).2
    · simp only [List.mem_singleton] at h
      rw [h]; linarith

/-! ## C2: loading from an empty (but existing) file -/

/-- C2 counterexample: for an existing but empty storage file, `load_passkeys`
returns the empty set and leaves the file empty — not the default set of
three records the claim promises. -/
theorem c2_counterexample_empty_file :
    load_passkeys (some []) = ((∅ : Finset String), some []) ∧
    (∅ : Finset String) ≠ default_passkeys := by
  constructor
  · rfl
  · decide

/-- C2 amended: seeding happens only when the storage file is absent; then
`load()` returns the three defaults and the file contains exactly those
three records. An existing file — even an empty one — is parsed as-is and
left unchanged, so an empty file loads as the empty set. -/
theorem c2_load_seeding_amended :
    load_passkeys none = (default_passkeys, some (save_passkeys default_passkeys)) ∧
    parse_rows (save_passkeys default_passkeys) = default_passkeys ∧
    (save_passkeys default_passkeys).length = 3 ∧
    (∀ rows : CsvFile, load_passkeys (some rows) = (parse_rows rows, some rows)) ∧
    load_passkeys (some []) = ((∅ : Finset String), some []) := by
  refine ⟨rfl, parse_rows_save _, ?_, fun rows => rfl, rfl⟩
  have h : (save_passkeys default_passkeys).length = default_passkeys.card := by
    simp [save_passkeys, Finset.length_sort]
  rw [h]
  decide

/-- C2 witness: an existing one-row file is parsed as-is and left unchanged. -/
theorem c2_load_seeding_amended_witness :
    load_passkeys (some [["k1"]]) = (parse_rows [["k1"]], some [["k1"]]) :=
  c2_load_seeding_amended.2.2.2.1 [["k1"]]

/-! ## C6: verify role assignment -/

/-- C6: `verify` returns `admin` exactly on the admin passkey, `user` exactly
on a non-admin member of the user set, `invalid` otherwise; in the invalid
case the session is unchanged and the 401 status is signalled. -/
theorem c6_verify_roles (pk : Finset String) (s : Session) (cand : String) :
    ((verify pk s cand).1 = .admin ↔ cand = ADMIN_PASSKEY) ∧
    ((verify pk s cand).1 = .user ↔ (cand ≠ ADMIN_PASSKEY ∧ cand ∈ pk)) ∧
    ((verify pk s cand).1 = .invalid ↔ (cand ≠ ADMIN_PASSKEY ∧ cand ∉ pk)) ∧
    ((verify pk s cand).1 = .invalid →
      (verify pk s cand).2 = s ∧ verify_status (verify pk s cand).1 = 401) := by
  by_cases h1 : cand = ADMIN_PASSKEY
  · simp [verify, h1, verify_status]
  · by_cases h2 : cand ∈ pk <;> simp [verify, h1, h2, verify_status]

/-- C6 witness at a concrete invalid candidate. -/
theorem c6_verify_roles_witness :
    (verify ∅ Session.start "nope").2 = Session.start ∧
    verify_status (verify ∅ Session.start "nope").1 = 401 :=
  (c6_verify_roles ∅ Session.start "nope").2.2.2 (by decide)

/-! ## C7: add_passkey case analysis -/

/-- C7: for an admin session, `add_passkey` fails with `empty` on blank input,
with `reservedAdmin` on the admin passkey, with `alreadyExists` on a
duplicate — each leaving the store (set and file) unchanged — and otherwise
inserts the trimmed input and persists the full updated set. -/
theorem c7_add_passkey_cases (sess : Session) (st : Store) (input : String)
    (hadmin : sess.is_admin = true) :
    (pyStrip input = "" → add_passkey sess st input = (.empty, st)) ∧
    (pyStrip input ≠ "" → pyStrip input = ADMIN_PASSKEY →
      add_passkey sess st input = (.reservedAdmin, st)) ∧
    (pyStrip input ≠ "" → pyStrip input ≠ ADMIN_PASSKEY → pyStrip input ∈ st.passkeys →
      add_passkey sess st input = (.alreadyExists, st)) ∧
    (pyStrip input ≠ "" → pyStrip input ≠ ADMIN_PASSKEY → pyStrip input ∉ st.passkeys →
      add_passkey sess st input =
        (.ok, ⟨insert (pyStrip input) st.passkeys,
               some (save_passkeys (insert (pyStrip input) st.passkeys))⟩)) := by
  have hadm : ADMIN_PASSKEY ≠ "" := by decide
  refine ⟨?_, ?_, ?_, ?_⟩
  · intro h; simp [add_passkey, hadmin, h]
  · intro h1 h2; simp [add_passkey, hadmin, h1, h2, hadm]
  · intro h1 h2 h3; simp [add_passkey, hadmin, h1, h2, h3]
  · intro h1 h2 h3; simp [add_passkey, hadmin, h1, h2, h3]

/-- C7 witness: a successful add on the seeded store. -/
theorem c7_add_passkey_cases_witness :
    add_passkey ⟨true, true⟩ ⟨default_passkeys, some (save_passkeys default_passkeys)⟩
        "newkey" =
      (.ok, ⟨insert (pyStrip "newkey") default_passkeys,
             some (save_passkeys (insert (pyStrip "newkey") default_passkeys))⟩) :=
  (c7_add_passkey_cases ⟨true, true⟩
      ⟨default_passkeys, some (save_passkeys default_passkeys)⟩ "newkey" rfl).2.2.2
    (by decide) (by decide) (by decide)

/-! ## C9: reachable session states -/

/-- C9: from a fresh session, `verify` and `logout` reach exactly the three
states Anonymous, User, Admin; `is_admin` implies `authenticated`; hence any
session the `/admin` guard admits is also admitted by `/dashboard`. -/
theorem c9_session_states :
    (∀ s, SessionReachable s →
      (s = Session.start ∨ s = ⟨true, false⟩ ∨ s = ⟨true, true⟩)) ∧
    SessionReachable ⟨true, false⟩ ∧ SessionReachable ⟨true, true⟩ ∧
    (∀ s, SessionReachable s → s.is_admin = true → s.authenticated = true) ∧
    (∀ s, SessionReachable s → admin_allows s = true → dashboard_allows s = true) := by
  have hstates : ∀ s, SessionReachable s →
      (s = Session.start ∨ s = ⟨true, false⟩ ∨ s = ⟨true, true⟩) := by
    intro s h
    induction h with
    | start => left; rfl
    | verify_step pk s input hs ih =>
        by_cases h1 : input = ADMIN_PASSKEY
        · right; right; simp [verify, h1]
        · by_cases h2 : input ∈ pk
          · right; left; simp [verify, h1, h2]
          · simpa [verify, h1, h2] using ih
    | logout_step s ih => left; rfl
  have huser : SessionReachable ⟨true, false⟩ := by
    have h := SessionReachable.verify_step {"secret123"} Session.start "secret123"
      SessionReachable.start
    exact (by decide : (verify {"secret123"} Session.start "secret123").2 =
      (⟨true, false⟩ : Session)) ▸ h
  have hadmin : SessionReachable ⟨true, true⟩ := by
    have h := SessionReachable.verify_step ∅ Session.start "admin123"
      SessionReachable.start
    exact (by decide : (verify ∅ Session.start "admin123").2 =
      (⟨true, true⟩ : Session)) ▸ h
  have himp : ∀ s, SessionReachable s → s.is_admin = true → s.authenticated = true := by
    intro s h hs
    rcases hstates s h with rfl | rfl | rfl
    · exact absurd hs (by decide)
    · exact absurd hs (by decide)
    · rfl
  exact ⟨hstates, huser, hadmin, himp, fun s h hg => himp s h hg⟩

/-- C9 witness: the Admin state is reachable and satisfies the invariant. -/
theorem c9_session_states_witness : (⟨true, true⟩ : Session).authenticated = true :=
  c9_session_states.2.2.2.1 ⟨true, true⟩ c9_session_states.2.2.1 rfl

/-! ## C10: frame property of an unexpired timeout -/

/-- C10: while an IP has an unexpired timeout, a rejected call — and any burst
of calls before the expiry — leaves the whole rate-limiter state unchanged,
so the recorded expiry is never extended and no log entry is touched. -/
theorem c10_timeout_frame (rl : RateLimiter) (ip : String) (now e : ℚ)
    (times : List ℚ) (hto : rl.timeouts ip = some e) (hnow : now < e)
    (htimes : ∀ u ∈ times, u < e) :
    is_allowed rl ip now = (false, rl) ∧
    run_calls rl (times.map (fun u => (ip, u))) = (times.map (fun _ => false), rl) :=
  ⟨is_allowed_blocked hto hnow, run_calls_blocked hto times htimes⟩

/-- C10 witness on a concrete timed-out state. -/
theorem c10_timeout_frame_witness :
    is_allowed ⟨7, 60, fun _ => [], fun _ => some 100⟩ "a" 50 =
      (false, ⟨7, 60, fun _ => [], fun _ => some 100⟩) ∧
    run_calls ⟨7, 60, fun _ => [], fun _ => some 100⟩ ([1, 2].map (fun u => ("a", u))) =
      ([1, 2].map (fun _ => false), ⟨7, 60, fun _ => [], fun _ => some 100⟩) :=
  c10_timeout_frame ⟨7, 60, fun _ => [], fun _ => some 100⟩ "a" 50 100 [1, 2] rfl
    (by norm_num)
    (by intro u hu
        simp only [List.mem_cons, List.not_mem_nil, or_false] at hu
        rcases hu with rfl | rfl <;> norm_num)

/-! ## C3: the admin passkey and the user set -/

/-- C3 counterexample: loading a storage file that contains the admin passkey
puts it into the user set, after which the listing shows it and deleting it
succeeds instead of failing with NotFound. -/
theorem c3_counterexample_hostile_file :
    ADMIN_PASSKEY ∈ (load_passkeys (some [["admin123"]])).1 ∧
    get_passkeys ⟨true, true⟩
        ⟨(load_passkeys (some [["admin123"]])).1, (load_passkeys (some [["admin123"]])).2⟩ =
      some ["admin123"] ∧
    (delete_passkey ⟨true, true⟩
        ⟨(load_passkeys (some [["admin123"]])).1, (load_passkeys (some [["admin123"]])).2⟩
        ADMIN_PASSKEY).1 = .ok := by
  have h1 : (load_passkeys (some [["admin123"]])).1 = {"admin123"} := by decide
  refine ⟨by decide, ?_, by decide⟩
  simp [get_passkeys, h1, Finset.sort_singleton]

/-- C3 amended: in every store state reachable from the seeded default via the
management handlers, the admin passkey is outside the user set, absent from
the listing, rejected by add, and NotFound on delete — but `load()` from an
arbitrary existing file does not establish this invariant. -/
theorem c3_admin_invariant (st : Store) (h : StoreReachable st) :
    ADMIN_PASSKEY ∉ st.passkeys ∧
    (∀ sess l, get_passkeys sess st = some l → ADMIN_PASSKEY ∉ l) ∧
    (∀ sess : Session, sess.is_admin = true →
      add_passkey sess st ADMIN_PASSKEY = (.reservedAdmin, st) ∧
      delete_passkey sess st ADMIN_PASSKEY = (.notFound, st)) := by
  have hmem : ADMIN_PASSKEY ∉ st.passkeys := by
    induction h with
    | seeded => decide
    | add_step sess st input hst ih =>
        rcases add_passkey_passkeys sess st input with heq | ⟨heq, hne⟩
        · rw [heq]; exact ih
        · rw [heq, Finset.mem_insert]
          rintro (he | hm)
          · exact hne he.symm
          · exact ih hm
    | del_step sess st input hst ih =>
        rcases delete_passkey_passkeys sess st input with heq | heq
        · rw [heq]; exact ih
        · rw [heq]
          intro hm
          exact ih (Finset.mem_of_mem_erase hm)
  refine ⟨hmem, ?_, ?_⟩
  · intro sess l hl
    by_cases hs : sess.is_admin
    · simp only [get_passkeys, if_pos hs, Option.some.injEq] at hl
      rw [← hl]
      intro hm
      exact hmem (Finset.mem_sort (α := String) (· ≤ ·) |>.mp hm)
    · simp [get_passkeys, hs] at hl
  · intro sess hs
    constructor
    · have htrim : pyStrip ADMIN_PASSKEY = ADMIN_PASSKEY := by decide
      have hne : ADMIN_PASSKEY ≠ "" := by decide
      simp [add_passkey, hs, htrim, hne]
    · simp [delete_passkey, hs, hmem]

/-- C3 witness: the seeded store satisfies the invariant. -/
theorem c3_admin_invariant_witness :
    ADMIN_PASSKEY ∉
      (⟨default_passkeys, some (save_passkeys default_passkeys)⟩ : Store).passkeys :=
  (c3_admin_invariant _ StoreReachable.seeded).1

/-! ## C4: lazy pruning of the request log -/

/-- C4 counterexample: seven admitted requests at time 0, an eighth at time 5
that starts a timeout until 65, and a ninth at time 62 that is rejected by
the unexpired timeout without pruning — afterwards the log still holds the
timestamp 0, which is older than 62 − 60. -/
theorem c4_counterexample_stale_entry :
    (run_calls (RateLimiter.init 7 60)
        ([0, 0, 0, 0, 0, 0, 0, 5, 62].map (fun u => ("a", u)))).1 =
      [true, true, true, true, true, true, true, false, false] ∧
    (run_calls (RateLimiter.init 7 60)
        ([0, 0, 0, 0, 0, 0, 0, 5, 62].map (fun u => ("a", u)))).2.timeouts "a" =
      some 65 ∧
    (0 : ℚ) ∈ (run_calls (RateLimiter.init 7 60)
        ([0, 0, 0, 0, 0, 0, 0, 5, 62].map (fun u => ("a", u)))).2.request_counts "a" ∧
    (0 : ℚ) < 62 - 60 := by
  norm_num [run_calls, is_allowed, rateCheck, updateFn_same, RateLimiter.init]

/-- C4 amended: the no-stale-entries property holds after every call that
passes the timeout check (in particular every admitted call); a call rejected
by an unexpired timeout returns early and leaves the log untouched, so it can
keep entries older than 60 seconds. -/
theorem c4_prune_amended (rl : RateLimiter) (ip : String) (now : ℚ)
    (h : ∀ e, rl.timeouts ip = some e → e ≤ now) :
    ∀ t ∈ (is_allowed rl ip now).2.request_counts ip, now - 60 < t := by
  obtain ⟨rl', heq, _, _, _⟩ := is_allowed_free h
  rw [heq]
  exact rateCheck_recent rl' ip now

/-- C4 witness: a call on a state with no timeout keeps only fresh entries. -/
theorem c4_prune_amended_witness :
    (5 : ℚ) ∈ (is_allowed ⟨7, 60, fun _ => [-100, 5], fun _ => none⟩ "a"
        10).2.request_counts "a" ∧
    (10 : ℚ) - 60 < 5 := by
  have hmem : (5 : ℚ) ∈ (is_allowed ⟨7, 60, fun _ => [-100, 5], fun _ => none⟩ "a"
      10).2.request_counts "a" := by
    norm_num [is_allowed, rateCheck, updateFn_same]
  exact ⟨hmem,
    c4_prune_amended ⟨7, 60, fun _ => [-100, 5], fun _ => none⟩ "a" 10
      (fun e he => Option.noConfusion he) 5 hmem⟩

/-! ## C8: add/remove round trip -/

/-- C8 counterexample: the passkey `" x "` is valid to add (non-blank after
trimming, not the admin passkey, not present), but add inserts its trimmed
form `"x"` while delete looks up the untrimmed `" x "`, so the round trip
fails with NotFound and leaves the set enlarged. -/
theorem c8_counterexample_untrimmed :
    (add_passkey ⟨true, true⟩
        ⟨default_passkeys, some (save_passkeys default_passkeys)⟩ " x ").1 = .ok ∧
    (delete_passkey ⟨true, true⟩
        (add_passkey ⟨true, true⟩
          ⟨default_passkeys, some (save_passkeys default_passkeys)⟩ " x ").2
        " x ").1 = .notFound ∧
    (delete_passkey ⟨true, true⟩
        (add_passkey ⟨true, true⟩
          ⟨default_passkeys, some (save_passkeys default_passkeys)⟩ " x ").2
        " x ").2.passkeys ≠ default_passkeys := by
  refine ⟨by decide, by decide, by decide⟩

/-- C8 amended: for a passkey equal to its own trimmed form (and otherwise
valid to add), add followed by delete restores the original set exactly, both
in memory and in the persisted file. -/
theorem c8_roundtrip_amended (st : Store) (sess : Session) (p : String)
    (hadmin : sess.is_admin = true) (htrim : pyStrip p = p) (hne : p ≠ "")
    (hadm : p ≠ ADMIN_PASSKEY) (hmem : p ∉ st.passkeys) :
    (add_passkey sess st p).1 = .ok ∧
    (delete_passkey sess (add_passkey sess st p).2 p).1 = .ok ∧
    (delete_passkey sess (add_passkey sess st p).2 p).2 =
      ⟨st.passkeys, some (save_passkeys st.passkeys)⟩ ∧
    parse_rows (save_passkeys st.passkeys) = st.passkeys := by
  have hadd : add_passkey sess st p =
      (.ok, ⟨insert p st.passkeys, some (save_passkeys (insert p st.passkeys))⟩) := by
    simp [add_passkey, hadmin, htrim, hne, hadm, hmem]
  have hdel : delete_passkey sess
      (⟨insert p st.passkeys, some (save_passkeys (insert p st.passkeys))⟩ : Store) p =
      (.ok, ⟨(insert p st.passkeys).erase p,
             some (save_passkeys ((insert p st.passkeys).erase p))⟩) := by
    simp [delete_passkey, hadmin, Finset.mem_insert_self]
  rw [hadd]
  rw [Finset.erase_insert hmem] at hdel
  exact ⟨rfl, by rw [hdel], by rw [hdel], parse_rows_save _⟩

/-! ## C1: the reject / timeout / readmit cycle -/

/-- C1: with the configured limit of 7 per minute and 60-second timeout, an
IP whose log holds exactly 7 admitted requests inside the trailing window is
rejected on its next request, a timeout expiring at `now + 60` is recorded,
every request before that expiry is rejected, and the first request at or
after the expiry is admitted again. -/
theorem c1_rate_limit_cycle (rl : RateLimiter) (ip : String) (now now3 : ℚ)
    (rejTimes : List ℚ)
    (hrpm : rl.requests_per_minute = 7) (hts : rl.timeout_seconds = 60)
    (hto : ∀ e, rl.timeouts ip = some e → e ≤ now)
    (hpast : ∀ t ∈ rl.request_counts ip, t ≤ now)
    (hwin : ((rl.request_counts ip).filter (fun t => decide (now - 60 < t))).length = 7)
    (hrej : ∀ u ∈ rejTimes, u < now + 60)
    (hread : now + 60 ≤ now3) :
    (is_allowed rl ip now).1 = false ∧
    (is_allowed rl ip now).2.timeouts ip = some (now + 60) ∧
    (run_calls (is_allowed rl ip now).2 (rejTimes.map (fun u => (ip, u)))).1 =
      rejTimes.map (fun _ => false) ∧
    (run_calls (is_allowed rl ip now).2 (rejTimes.map (fun u => (ip, u)))).2 =
      (is_allowed rl ip now).2 ∧
    (is_allowed (run_calls (is_allowed rl ip now).2 (rejTimes.map (fun u => (ip, u)))).2
        ip now3).1 = true := by
  obtain ⟨rl', heq, hrc, hrpm', hts'⟩ := is_allowed_free hto
  have hcond : rl'.requests_per_minute ≤
      ((rl'.request_counts ip).filter (fun t => decide (now - 60 < t))).length := by
    rw [hrc, hrpm', hrpm, hwin]
  have hb : (is_allowed rl ip now).1 = false := by rw [heq, rateCheck_reject hcond]
  have hto1 : (is_allowed rl ip now).2.timeouts ip = some (now + 60) := by
    rw [heq, rateCheck_reject hcond]
    simp [updateFn_same, hts', hts]
  have hlog1 : (is_allowed rl ip now).2.request_counts ip =
      (rl.request_counts ip).filter (fun t => decide (now - 60 < t)) := by
    rw [heq, rateCheck_reject hcond]
    simp [updateFn_same, hrc]
  have hrpm1 : (is_allowed rl ip now).2.requests_per_minute = 7 := by
    rw [heq, rateCheck_reject hcond]
    simp [hrpm', hrpm]
  have hrun := run_calls_blocked hto1 rejTimes hrej
  refine ⟨hb, hto1, by rw [hrun], by rw [hrun], ?_⟩
  rw [hrun]
  have hto3 : ∀ e, (is_allowed rl ip now).2.timeouts ip = some e → e ≤ now3 := by
    intro e he
    rw [hto1] at he
    exact (Option.some.inj he) ▸ hread
  obtain ⟨rl2, heq2, hrc2, hrpm2, _⟩ := is_allowed_free hto3
  have hempty : (rl2.request_counts ip).filter (fun t => decide (now3 - 60 < t)) = [] := by
    apply List.filter_eq_nil_iff.mpr
    intro a ha
    rw [hrc2, hlog1] at ha
    have ha' : a ∈ rl.request_counts ip := (List.mem_filter.mp ha).1
    have hle : a ≤ now := hpast a ha'
    simp only [decide_eq_true_eq, not_lt]
    linarith
  have hcond2 : ¬ (rl2.requests_per_minute ≤
      ((rl2.request_counts ip).filter (fun t => decide (now3 - 60 < t))).length) := by
    rw [hempty, hrpm2, hrpm1]
    simp
  rw [heq2, rateCheck_pass hcond2]

/-- C1 witness on a concrete full window. -/
theorem c1_rate_limit_cycle_witness :
    (is_allowed ⟨7, 60, fun _ => [1, 2, 3, 4, 5, 6, 7], fun _ => none⟩ "a" 10).1 = false ∧
    (is_allowed ⟨7, 60, fun _ => [1, 2, 3, 4, 5, 6, 7], fun _ => none⟩ "a"
        10).2.timeouts "a" = some (10 + 60) ∧
    (run_calls (is_allowed ⟨7, 60, fun _ => [1, 2, 3, 4, 5, 6, 7], fun _ => none⟩ "a" 10).2
        ([20, 69].map (fun u => ("a", u)))).1 = [20, 69].map (fun _ => false) ∧
    (run_calls (is_allowed ⟨7, 60, fun _ => [1, 2, 3, 4, 5, 6, 7], fun _ => none⟩ "a" 10).2
        ([20, 69].map (fun u => ("a", u)))).2 =
      (is_allowed ⟨7, 60, fun _ => [1, 2, 3, 4, 5, 6, 7], fun _ => none⟩ "a" 10).2 ∧
    (is_allowed
        (run_calls (is_allowed ⟨7, 60, fun _ => [1, 2, 3, 4, 5, 6, 7], fun _ => none⟩ "a"
            10).2 ([20, 69].map (fun u => ("a", u)))).2
        "a" 70).1 = true :=
  c1_rate_limit_cycle ⟨7, 60, fun _ => [1, 2, 3, 4, 5, 6, 7], fun _ => none⟩ "a" 10 70
    [20, 69] rfl rfl (fun e he => Option.noConfusion he)
    (by intro t ht
        simp only [List.mem_cons, List.not_mem_nil, or_false] at ht
        rcases ht with rfl | rfl | rfl | rfl | rfl | rfl | rfl <;> norm_num)
    (by norm_num)
    (by intro u hu
        simp only [List.mem_cons, List.not_mem_nil, or_false] at hu
        rcases hu with rfl | rfl <;> norm_num)
    (by norm_num)

/-! ## C5: even spacing never triggers the limiter -/

/-- Splitting a call list: the results append and the state composes. -/
theorem run_calls_append (rl : RateLimiter) (l1 l2 : List (String × ℚ)) :
    run_calls rl (l1 ++ l2) =
      ((run_calls rl l1).1 ++ (run_calls (run_calls rl l1).2 l2).1,
        (run_calls (run_calls rl l1).2 l2).2) := by
  induction l1 generalizing rl with
  | nil => simp [run_calls]
  | cons c rest ih => simp [run_calls, ih]

/-- One step of the even-spacing argument: if every log entry is one of the
first `n` evenly spaced times, the call at time `n` is admitted and the
invariant carries to `n + 1`. -/
theorem even_step (r : ℕ) (hr : 1 ≤ r) (t0 : ℚ) (ip : String) (n : ℕ)
    (st : RateLimiter)
    (h1 : st.requests_per_minute = r) (h2 : st.timeouts ip = none)
    (h3 : ∀ t ∈ st.request_counts ip,
      ∃ k, k < n ∧ t = t0 + (k : ℚ) * (60 / (r : ℚ)))
    (h4 : (st.request_counts ip).Pairwise (· < ·)) :
    (is_allowed st ip (t0 + (n : ℚ) * (60 / (r : ℚ)))).1 = true ∧
    (is_allowed st ip (t0 + (n : ℚ) * (60 / (r : ℚ)))).2.requests_per_minute = r ∧
    (is_allowed st ip (t0 + (n : ℚ) * (60 / (r : ℚ)))).2.timeouts ip = none ∧
    (∀ t ∈ (is_allowed st ip (t0 + (n : ℚ) * (60 / (r : ℚ)))).2.request_counts ip,
      ∃ k, k < n + 1 ∧ t = t0 + (k : ℚ) * (60 / (r : ℚ))) ∧
    ((is_allowed st ip (t0 + (n : ℚ) * (60 / (r : ℚ)))).2.request_counts ip).Pairwise
      (· < ·) := by
  have hrq : (0 : ℚ) < (r : ℚ) := by exact_mod_cast hr
  have hd : (0 : ℚ) < 60 / (r : ℚ) := by positivity
  have hrd : (r : ℚ) * (60 / (r : ℚ)) = 60 := by field_simp
  have heq : is_allowed st ip (t0 + (n : ℚ) * (60 / (r : ℚ))) =
      rateCheck st ip (t0 + (n : ℚ) * (60 / (r : ℚ))) := by
    simp [is_allowed, h2]
  have hppw : ((st.request_counts ip).filter
      (fun t => decide (t0 + (n : ℚ) * (60 / (r : ℚ)) - 60 < t))).Pairwise (· < ·) :=
    List.Pairwise.filter _ h4
  have hnodup : ((st.request_counts ip).filter
      (fun t => decide (t0 + (n : ℚ) * (60 / (r : ℚ)) - 60 < t))).Nodup :=
    hppw.imp (fun hab => ne_of_lt hab)
  have hsub : ((st.request_counts ip).filter
        (fun t => decide (t0 + (n : ℚ) * (60 / (r : ℚ)) - 60 < t))).toFinset ⊆
      (Finset.Ico (n + 1 - r) n).image (fun k : ℕ => t0 + (k : ℚ) * (60 / (r : ℚ))) := by
    intro x hx
    have hx' := List.mem_toFinset.mp hx
    have hxl : x ∈ st.request_counts ip := (List.mem_filter.mp hx').1
    have hxr : t0 + (n : ℚ) * (60 / (r : ℚ)) - 60 < x :=
      of_decide_eq_true (List.mem_filter.mp hx').2
    obtain ⟨k, hk, rfl⟩ := h3 x hxl
    have h5 : ((n : ℚ) - (r : ℚ)) * (60 / (r : ℚ)) < (k : ℚ) * (60 / (r : ℚ)) := by
      rw [sub_mul]
      linarith [hxr, hrd]
    have h6 : (n : ℚ) - (r : ℚ) < (k : ℚ) := (mul_lt_mul_right hd).mp h5
    have h7 : n < k + r := by
      have h8 : (n : ℚ) < (k : ℚ) + (r : ℚ) := by linarith
      exact_mod_cast h8
    refine Finset.mem_image.mpr ⟨k, Finset.mem_Ico.mpr ⟨?_, hk⟩, rfl⟩
    omega
  have hlen : ((st.request_counts ip).filter
      (fun t => decide (t0 + (n : ℚ) * (60 / (r : ℚ)) - 60 < t))).length < r := by
    have e1 := List.toFinset_card_of_nodup hnodup
    have e2 := Finset.card_le_card hsub
    have e3 : ((Finset.Ico (n + 1 - r) n).image
        (fun k : ℕ => t0 + (k : ℚ) * (60 / (r : ℚ)))).card ≤ (Finset.Ico (n + 1 - r) n).card :=
      Finset.card_image_le
    rw [Nat.card_Ico] at e3
    omega
  have hcond : ¬ (st.requests_per_minute ≤ ((st.request_counts ip).filter
      (fun t => decide (t0 + (n : ℚ) * (60 / (r : ℚ)) - 60 < t))).length) := by
    rw [h1]
    omega
  rw [heq, rateCheck_pass hcond]
  refine ⟨rfl, h1, h2, ?_, ?_⟩
  · intro t ht
    simp only [updateFn_same] at ht
    rcases List.mem_append.mp ht with hm | hm
    · obtain ⟨k, hk, rfl⟩ := h3 t (List.mem_filter.mp hm).1
      exact ⟨k, by omega, rfl⟩
    · simp only [List.mem_singleton] at hm
      exact ⟨n, by omega, hm⟩
  · simp only [updateFn_same]
    apply List.pairwise_append.mpr
    refine ⟨hppw, List.pairwise_singleton _ _, ?_⟩
    intro x hx y hy
    simp only [List.mem_singleton] at hy
    subst hy
    obtain ⟨k, hk, rfl⟩ := h3 x (List.mem_filter.mp hx).1
    have hkd : (k : ℚ) * (60 / (r : ℚ)) < (n : ℚ) * (60 / (r : ℚ)) := by
      apply (mul_lt_mul_right hd).mpr
      exact_mod_cast hk
    linarith

/-- The even-spacing invariant, carried along the whole run. -/
theorem even_spacing_run (r : ℕ) (hr : 1 ≤ r) (t0 : ℚ) (ip : String) (n : ℕ) :
    (run_calls (RateLimiter.init r 60)
      ((List.range n).map (fun k : ℕ => (ip, t0 + (k : ℚ) * (60 / (r : ℚ)))))).1 =
      List.replicate n true ∧
    (run_calls (RateLimiter.init r 60)
      ((List.range n).map (fun k : ℕ =>
        (ip, t0 + (k : ℚ) * (60 / (r : ℚ)))))).2.requests_per_minute = r ∧
    (run_calls (RateLimiter.init r 60)
      ((List.range n).map (fun k : ℕ =>
        (ip, t0 + (k : ℚ) * (60 / (r : ℚ)))))).2.timeouts ip = none ∧
    (∀ t ∈ (run_calls (RateLimiter.init r 60)
        ((List.range n).map (fun k : ℕ =>
          (ip, t0 + (k : ℚ) * (60 / (r : ℚ)))))).2.request_counts ip,
      ∃ k, k < n ∧ t = t0 + (k : ℚ) * (60 / (r : ℚ))) ∧
    ((run_calls (RateLimiter.init r 60)
      ((List.range n).map (fun k : ℕ =>
        (ip, t0 + (k : ℚ) * (60 / (r : ℚ)))))).2.request_counts ip).Pairwise (· < ·) := by
  induction n with
  | zero =>
      refine ⟨rfl, rfl, rfl, ?_, ?_⟩
      · intro t ht
        exact absurd ht (List.not_mem_nil t)
      · exact List.Pairwise.nil
  | succ n ih =>
      obtain ⟨ih1, ihr, ihto, ihmem, ihpw⟩ := ih
      obtain ⟨s1, s2, s3, s4, s5⟩ := even_step r hr t0 ip n _ ihr ihto ihmem ihpw
      have hsingle : ∀ (stx : RateLimiter) (j : String) (x : ℚ),
          run_calls stx [(j, x)] = ([(is_allowed stx j x).1], (is_allowed stx j x).2) := by
        intro stx j x
        simp [run_calls]
      simp only [List.range_succ, List.map_append, run_calls_append, List.map_cons,
        List.map_nil, hsingle]
      refine ⟨?_, s2, s3, s4, s5⟩
      rw [ih1, s1, List.replicate_succ']

/-- C5: requests spaced exactly `60 / requestsPerMinute` seconds apart are all
admitted and never set a timeout, because the window boundary is strictly
exclusive at the old end. -/
theorem c5_even_spacing (r : ℕ) (t0 : ℚ) (ip : String) (n : ℕ) (hr : 1 ≤ r) :
    (run_calls (RateLimiter.init r 60)
      ((List.range n).map (fun k : ℕ => (ip, t0 + (k : ℚ) * (60 / (r : ℚ)))))).1 =
      List.replicate n true ∧
    (run_calls (RateLimiter.init r 60)
      ((List.range n).map (fun k : ℕ =>
        (ip, t0 + (k : ℚ) * (60 / (r : ℚ)))))).2.timeouts ip = none :=
  ⟨(even_spacing_run r hr t0 ip n).1, (even_spacing_run r hr t0 ip n).2.2.1⟩

/-- C5 witness: ten requests at the configured rate of 7 per minute. -/
theorem c5_even_spacing_witness :
    (run_calls (RateLimiter.init 7 60)
      ((List.range 10).map (fun k : ℕ => ("a", 0 + (k : ℚ) * (60 / (7 : ℚ)))))).1 =
      List.replicate 10 true ∧
    (run_calls (RateLimiter.init 7 60)
      ((List.range 10).map (fun k : ℕ =>
        ("a", 0 + (k : ℚ) * (60 / (7 : ℚ)))))).2.timeouts "a" = none :=
  c5_even_spacing 7 0 "a" 10 (by norm_num)

/-- C8 witness: round trip of `"zzz"` on the seeded store. -/
theorem c8_roundtrip_amended_witness :
    (add_passkey ⟨true, true⟩
        ⟨default_passkeys, some (save_passkeys default_passkeys)⟩ "zzz").1 = .ok ∧
    (delete_passkey ⟨true, true⟩
        (add_passkey ⟨true, true⟩
          ⟨default_passkeys, some (save_passkeys default_passkeys)⟩ "zzz").2
        "zzz").1 = .ok ∧
    (delete_passkey ⟨true, true⟩
        (add_passkey ⟨true, true⟩
          ⟨default_passkeys, some (save_passkeys default_passkeys)⟩ "zzz").2
        "zzz").2 = ⟨default_passkeys, some (save_passkeys default_passkeys)⟩ ∧
    parse_rows (save_passkeys default_passkeys) = default_passkeys :=
  c8_roundtrip_amended ⟨default_passkeys, some (save_passkeys default_passkeys)⟩
    ⟨true, true⟩ "zzz" rfl (by decide) (by decide) (by decide) (by decide)
